import Mathlib

/-!
Verification development for `bin/ri-solr-diff.py`, a script that reconciles a
Fedora resource index (RI) with a Solr index by merging two paginated, sorted
streams of `(identifier, last-modified-timestamp)` pairs and asking GSearch to
reindex every identifier that drifted.

The shallow embedding below follows the source closely:
  - identifiers (`PID` strings in the source) are Lean `String`s, compared
    lexicographically exactly as Python compares `str`;
  - timestamps (timezone-aware instants, totally ordered) are embedded as `Nat`;
  - each remote query service is modelled by the sorted table `db` it would
    enumerate, so one page fetch returns `(db.filter f).take limit`, mirroring
    a query with the given timestamp filter, `ORDER BY timestamp, id`, and
    `limit`/`rows` set to the page size;
  - HTTP failures are injected by an oracle `fail : Nat → Bool` over the
    request counter: request `i` returns a non-success status iff `fail i`;
  - the GSearch update trigger responses are an oracle `resp : Pid → Nat`
    giving the HTTP status each notification request returns.
-/

abbrev Pid := String
abbrev Record := Pid × Nat

/-- Python compares `str` values lexicographically; core Lean defines `<` on
`String` as the lexicographic order on the underlying character lists.  The
core decision procedure (`String.ltb`) does not reduce in the kernel, so we
decide `<` directly on the character lists, which is the same proposition by
`String.lt_iff_toList_lt`. -/
instance stringLtDecidable : DecidableRel ((· < ·) : String → String → Prop) :=
  fun s t => decidable_of_iff (s.toList < t.toList) String.lt_iff_toList_lt.symm

/-- The timestamp filter carried between page fetches.

`ri_generator.__iter__` starts with `FILTER(?timestamp >= "start")` when a
window boundary is given (otherwise no filter) and switches to
`FILTER(?timestamp > "cursor")` after each page.  `solr_generator.__iter__`
uses `fq = field:{start TO *}` — an exclusive lower bound — both for the
window boundary and for the cursor. -/
inductive TimeFilter
  | all
  | ge (t : Nat)
  | gt (t : Nat)
  deriving DecidableEq

def TimeFilter.test : TimeFilter → Record → Bool
  | .all, _ => true
  | .ge t0, r => decide (t0 ≤ r.2)
  | .gt t0, r => decide (t0 < r.2)

/-- Failure oracle of a run in which every request succeeds. -/
def neverFail : Nat → Bool := fun _ => false

/-- The page-fetch loop of `ri_generator.__iter__` (lines 84-102).

A request with filter `f` returns the page `(db.filter f.test).take limit`
(the SPARQL query sorted by `?timestamp ?obj` with the given `limit`).
`while r.status_code == requests.codes.ok` means a failed request simply ends
the generator — no exception is raised.  An empty result list breaks the
loop; otherwise the page is yielded, the cursor becomes the timestamp of the
last record of the page (`query_result["results"][-1]["timestamp"]`) and the
filter is replaced by the strict `FILTER(?timestamp > cursor)`.

`fuel` bounds the number of fetches; every successful non-empty page removes
at least one record from the filtered remainder, so `db.length + 1` fetches
always suffice (see `ri_generator`). -/
def ri_loop (db : List Record) (limit : Nat) (fail : Nat → Bool) :
    Nat → Nat → TimeFilter → List Record
  | 0, _, _ => []
  | fuel + 1, idx, f =>
    if fail idx then []
    else
      match (db.filter (TimeFilter.test f)).take limit with
      | [] => []
      | p :: ps =>
        (p :: ps) ++
          ri_loop db limit fail fuel (idx + 1)
            (TimeFilter.gt (((p :: ps).getLast (by simp)).2))

/-- Model of `ri_generator` over a table `db`: initial filter `>= start` when a window
boundary is given (lines 52-53), no filter otherwise. -/
def ri_generator (db : List Record) (limit : Nat) (start : Option Nat)
    (fail : Nat → Bool) : List Record :=
  ri_loop db limit fail (db.length + 1) 0
    (match start with | none => TimeFilter.all | some s => TimeFilter.ge s)

/-- The page-fetch loop of `solr_generator.__iter__` (lines 123-140).

A request returns `numFound` (the total number of documents matching the
query, independent of `rows`) together with the first `limit` documents.  The
loop breaks when `numFound == 0`; otherwise the docs are yielded and the
cursor becomes the last modified date of the final doc
(`query_results["response"]["docs"][-1][self.field]`), refetched with the
exclusive range `fq = field:{cursor TO *}`.

When `numFound > 0` but the page itself is empty (only possible with
`rows = 0`), the source evaluates `docs[-1]` on an empty list and dies with an
`IndexError`; the model returns the records yielded so far at that point. -/
def solr_loop (db : List Record) (limit : Nat) (fail : Nat → Bool) :
    Nat → Nat → TimeFilter → List Record
  | 0, _, _ => []
  | fuel + 1, idx, f =>
    if fail idx then []
    else
      if (db.filter (TimeFilter.test f)).length = 0 then []
      else
        match (db.filter (TimeFilter.test f)).take limit with
        | [] => []
        | p :: ps =>
          (p :: ps) ++
            solr_loop db limit fail fuel (idx + 1)
              (TimeFilter.gt (((p :: ps).getLast (by simp)).2))

/-- Model of `solr_generator` over a table `db`: the initial `fq` is the exclusive
range `field:{start TO *}` when a window boundary is given (lines 120-121). -/
def solr_generator (db : List Record) (limit : Nat) (start : Option Nat)
    (fail : Nat → Bool) : List Record :=
  solr_loop db limit fail (db.length + 1) 0
    (match start with | none => TimeFilter.all | some s => TimeFilter.gt s)

/-- No group of records sharing one timestamp is split across a page
boundary: whenever position `j + 1` starts a new page of size `limit`, the
records at positions `j` and `j + 1` carry different timestamps. -/
def noSplit (limit : Nat) (l : List Record) : Bool :=
  (List.range l.length).all fun j =>
    if h : j + 1 < l.length then
      if (j + 1) % limit = 0 then
        decide ((l.get ⟨j, by omega⟩).2 ≠ (l.get ⟨j + 1, h⟩).2)
      else true
    else true

/-- The `gsearch` object state: `self.updated = False` in `__init__`. -/
structure gsearch where
  updated : Bool
  deriving DecidableEq

/-- The statement `if not self.updated: self.updated = True` performed at the
top of `gsearch.update_pid`, before the notification request is posted. -/
def markUpdated (g : gsearch) : gsearch :=
  if g.updated then g else { updated := true }

/-- Observable state of a run: the `gsearch` object plus the sequence of
identifiers for which a trigger notification request was posted, in order. -/
structure RunState where
  gs : gsearch
  calls : List Pid
  deriving DecidableEq

def initState : RunState := { gs := { updated := false }, calls := [] }

/-- Model of `gsearch.update_pid` (lines 151-166): set `updated`, post the
`updateIndex/fromPid` request, and log according to the response status.  The
response status `resp pid` influences nothing but the log message. -/
def update_pid (resp : Pid → Nat) (s : RunState) (pid : Pid) :
    RunState × String :=
  let g' := markUpdated s.gs
  -- the notification request for `pid` is posted here, with `g'` in effect
  let msg :=
    if resp pid = 200 then "Updated " ++ pid
    else "Failed to update " ++ pid ++ "?"
  ({ gs := g', calls := s.calls ++ [pid] }, msg)

/-- The `while ri_result and solr_result` merge loop of `__main__`
(lines 193-219), with the buffered current record of each side as explicit
arguments and the unread remainders `ra`, `sa` of the two iterators.

`xx.next()` raising `StopIteration` exits the `try` block: the function then
returns the state together with the remainders the two leftover drain loops
will see.  Note that when `next()` raises on one side, the *buffered* record
of the other side is simply discarded — only the unread remainder reaches the
drain loops.

Each recursive call consumes at least one element of `ra ++ sa`, so
`ra.length + sa.length + 1` fuel makes the `fuel = 0` branch unreachable
(see `merge_main`). -/
def merge_loop (resp : Pid → Nat) :
    Nat → Record → Record → List Record → List Record → RunState →
    RunState × List Record × List Record
  | 0, _, _, ra, sa, s => (s, ra, sa)
  | fuel + 1, (rp, rt), (sp, st), ra, sa, s =>
    if rt < st then
      -- RI older, update ri_pid, advance RI
      let s' := (update_pid resp s rp).1
      match ra with
      | [] => (s', [], sa)
      | r :: ra' => merge_loop resp fuel r (sp, st) ra' sa s'
    else if st < rt then
      -- Solr older, update solr_pid, advance Solr
      let s' := (update_pid resp s sp).1
      match sa with
      | [] => (s', ra, [])
      | q :: sa' => merge_loop resp fuel (rp, rt) q ra sa' s'
    else
      -- same time: compare PIDs
      if rp < sp then
        let s' := (update_pid resp s rp).1
        match ra with
        | [] => (s', [], sa)
        | r :: ra' => merge_loop resp fuel r (sp, st) ra' sa s'
      else if sp < rp then
        let s' := (update_pid resp s sp).1
        match sa with
        | [] => (s', ra, [])
        | q :: sa' => merge_loop resp fuel (rp, rt) q ra sa' s'
      else
        -- same PID, same time: skip, advance both (RI first)
        match ra with
        | [] => (s, [], sa)
        | r :: ra' =>
          match sa with
          | [] => (s, ra', [])
          | q :: sa' => merge_loop resp fuel r q ra' sa' s

/-- Lines 189-221: the initial `ri.next()` / `solr.next()` pulls and the merge
loop, returning the state at the end of the `try` block and the remainders
left for the two drain loops.  If `ri` is empty, `ri.next()` raises at line
190 and `solr` is never pulled, so the Solr drain sees all of `B`; if `ri` is
non-empty but `solr` is empty, the buffered RI record is discarded and the RI
drain sees only the remainder. -/
def merge_main (resp : Pid → Nat) (A B : List Record) :
    RunState × List Record × List Record :=
  match A with
  | [] => (initState, [], B)
  | a :: A' =>
    match B with
    | [] => (initState, A', [])
    | b :: B' => merge_loop resp (A'.length + B'.length + 1) a b A' B' initState

/-- Lines 189-238 of `__main__`: merge, the two leftover drain loops, and the
final `exit`.  Result: `(state, crashed, exit code)`.

Both drain loops call `logger.debug(...)` on their first leftover record, but
no name `logger` is ever defined in the script (only the module `logging`),
so the first leftover raises `NameError` before `gsearch.update_pid` runs;
the interpreter then exits with status 1 without flagging anything further.
With no leftovers, the script reaches `exit(1 if gsearch.updated else 0)`. -/
def main_run (resp : Pid → Nat) (A B : List Record) :
    RunState × Bool × Nat :=
  let res := merge_main resp A B
  let s := res.1
  let riRest := res.2.1
  let solrRest := res.2.2
  if riRest.isEmpty = false then (s, true, 1)
  else if solrRest.isEmpty = false then (s, true, 1)
  else (s, false, if s.gs.updated then 1 else 0)

/-- The whole pass: both generators feeding the merge. -/
def full_run (resp : Pid → Nat) (riDb solrDb : List Record) (limit : Nat)
    (start : Option Nat) (riFail solrFail : Nat → Bool) :
    RunState × Bool × Nat :=
  main_run resp (ri_generator riDb limit start riFail)
    (solr_generator solrDb limit start solrFail)

/-! ### Basic facts about `update_pid` and the run-state invariant -/

lemma update_pid_updated (resp : Pid → Nat) (s : RunState) (pid : Pid) :
    ((update_pid resp s pid).1).gs.updated = true := by
  by_cases h : s.gs.updated <;> simp [update_pid, markUpdated, h]

lemma update_pid_calls (resp : Pid → Nat) (s : RunState) (pid : Pid) :
    ((update_pid resp s pid).1).calls = s.calls ++ [pid] := rfl

/-- Along the merge loop, `gsearch.updated` is true exactly when at least one
notification was posted (assuming the same held on entry). -/
lemma merge_loop_inv (resp : Pid → Nat) :
    ∀ (fuel : Nat) (a b : Record) (ra sa : List Record) (s : RunState),
      s.gs.updated = (!s.calls.isEmpty) →
      ((merge_loop resp fuel a b ra sa s).1).gs.updated
        = (!((merge_loop resp fuel a b ra sa s).1).calls.isEmpty) := by
  intro fuel
  induction fuel with
  | zero => intro a b ra sa s h; simpa [merge_loop] using h
  | succ n ih =>
    intro a b ra sa s h
    obtain ⟨rp, rt⟩ := a
    obtain ⟨sp, st⟩ := b
    have hup : ∀ pid, ((update_pid resp s pid).1).gs.updated
        = (!((update_pid resp s pid).1).calls.isEmpty) := by
      intro pid
      rw [update_pid_updated, update_pid_calls]
      simp
    simp only [merge_loop]
    split_ifs with h1 h2 h3 h4
    · cases ra with
      | nil => exact hup rp
      | cons r ra' => exact ih r (sp, st) ra' sa _ (hup rp)
    · cases sa with
      | nil => exact hup sp
      | cons q sa' => exact ih (rp, rt) q ra sa' _ (hup sp)
    · cases ra with
      | nil => exact hup rp
      | cons r ra' => exact ih r (sp, st) ra' sa _ (hup rp)
    · cases sa with
      | nil => exact hup sp
      | cons q sa' => exact ih (rp, rt) q ra sa' _ (hup sp)
    · cases ra with
      | nil => exact h
      | cons r ra' =>
        cases sa with
        | nil => exact h
        | cons q sa' => exact ih r q ra' sa' s h

lemma merge_main_inv (resp : Pid → Nat) (A B : List Record) :
    ((merge_main resp A B).1).gs.updated
      = (!((merge_main resp A B).1).calls.isEmpty) := by
  cases A with
  | nil => rfl
  | cons a A' =>
    cases B with
    | nil => rfl
    | cons b B' => exact merge_loop_inv resp _ a b A' B' initState rfl

/-- The exit code of a run is determined by the crash flag and by whether any
trigger notification was posted. -/
lemma main_run_exit_shape (resp : Pid → Nat) (A B : List Record) :
    (main_run resp A B).2.2
      = (if (main_run resp A B).2.1 = true then 1
         else if (main_run resp A B).1.calls.isEmpty = true then 0 else 1) := by
  rcases hmm : merge_main resp A B with ⟨s, riRest, solrRest⟩
  have h : s.gs.updated = (!s.calls.isEmpty) := by
    simpa [hmm] using merge_main_inv resp A B
  simp only [main_run, hmm]
  by_cases h1 : riRest.isEmpty = false
  · simp [h1]
  · by_cases h2 : solrRest.isEmpty = false
    · simp [h1, h2]
    · simp only [if_neg h1, if_neg h2]
      cases hc : s.calls.isEmpty <;> simp [h, hc]

/-- The merge loop never resets `gsearch.updated`. -/
lemma merge_loop_updated_mono (resp : Pid → Nat) :
    ∀ (fuel : Nat) (a b : Record) (ra sa : List Record) (s : RunState),
      s.gs.updated = true →
      ((merge_loop resp fuel a b ra sa s).1).gs.updated = true := by
  intro fuel
  induction fuel with
  | zero => intro a b ra sa s h; simpa [merge_loop] using h
  | succ n ih =>
    intro a b ra sa s h
    obtain ⟨rp, rt⟩ := a
    obtain ⟨sp, st⟩ := b
    simp only [merge_loop]
    split_ifs with h1 h2 h3 h4
    · cases ra with
      | nil => exact update_pid_updated resp s rp
      | cons r ra' => exact ih r (sp, st) ra' sa _ (update_pid_updated resp s rp)
    · cases sa with
      | nil => exact update_pid_updated resp s sp
      | cons q sa' => exact ih (rp, rt) q ra sa' _ (update_pid_updated resp s sp)
    · cases ra with
      | nil => exact update_pid_updated resp s rp
      | cons r ra' => exact ih r (sp, st) ra' sa _ (update_pid_updated resp s rp)
    · cases sa with
      | nil => exact update_pid_updated resp s sp
      | cons q sa' => exact ih (rp, rt) q ra sa' _ (update_pid_updated resp s sp)
    · cases ra with
      | nil => exact h
      | cons r ra' =>
        cases sa with
        | nil => exact h
        | cons q sa' => exact ih r q ra' sa' s h

/-- Running the merge loop with identical buffered records and identical
remainders on both sides always takes the equal branch and consumes
everything without touching the state. -/
lemma merge_loop_diag (resp : Pid → Nat) :
    ∀ (L : List Record) (fuel : Nat) (r : Record) (s : RunState),
      L.length < fuel →
      merge_loop resp fuel r r L L s = (s, [], []) := by
  intro L
  induction L with
  | nil =>
    intro fuel r s hf
    cases fuel with
    | zero => omega
    | succ n =>
      obtain ⟨rp, rt⟩ := r
      rw [merge_loop, if_neg (lt_irrefl rt), if_neg (lt_irrefl rt),
        if_neg (lt_irrefl rp), if_neg (lt_irrefl rp)]
  | cons x L' ih =>
    intro fuel r s hf
    cases fuel with
    | zero => simp at hf
    | succ n =>
      obtain ⟨rp, rt⟩ := r
      rw [merge_loop, if_neg (lt_irrefl rt), if_neg (lt_irrefl rt),
        if_neg (lt_irrefl rp), if_neg (lt_irrefl rp)]
      exact ih n x s (by simpa using hf)

/-! ### Claims about the merge reconciler -/

/-- Claim C1 (code bug).  With catalog stream A = [(x,1),(y,2)] and Solr
stream B = [(x,1)], the symmetric difference is {(y,2)}, so the claim
requires (y,2) to be flagged exactly once and the run to exit 1.  The script
instead pulls (y,2) as the new buffered RI record, then `solr.next()` raises
`StopIteration`, the buffered record is discarded, both drain loops see
nothing, no identifier is flagged, and the process exits 0. -/
theorem merge_loses_buffered_record_eval :
    (main_run (fun _ => 200) [("x", 1), ("y", 2)] [("x", 1)]).1.calls = [] ∧
    main_run (fun _ => 200) [("x", 1), ("y", 2)] [("x", 1)]
      = (initState, false, 0) := by
  decide

/-- Claim C2 (code bug).  With A = [(x,1),(y,2),(z,3)] and B = [(x,1)], the
Solr side exhausts while (y,2) and (z,3) remain; the claim requires both to
be flagged, in order.  The script discards the buffered (y,2), and the RI
drain loop raises `NameError` on (z,3) (the script calls `logger.debug` but
only the module `logging` exists), so nothing is flagged and the interpreter
dies with exit status 1. -/
theorem drain_crashes_on_leftovers_eval :
    (main_run (fun _ => 200) [("x", 1), ("y", 2), ("z", 3)] [("x", 1)]).1.calls = [] ∧
    (main_run (fun _ => 200) [("x", 1), ("y", 2), ("z", 3)] [("x", 1)]).2.1 = true := by
  decide

/-- Claim C4 (code bug).  Scenario 2 of the spec: A = [(x,t1)], B = [].  The
claim requires x to be flagged and the exit code to be 1; in the script
`solr.next()` raises `StopIteration` at line 191 while (x,t1) sits in the
buffered `ri_result`, which is discarded, so nothing is flagged and the
process exits 0. -/
theorem scenario_two_no_flag_exit_zero_eval :
    (main_run (fun _ => 200) [("x", 1)] []).1.calls = [] ∧
    main_run (fun _ => 200) [("x", 1)] [] = (initState, false, 0) := by
  decide

/-- Claim C9 (confirmed, strengthened: sortedness is not even needed).
Feeding the reconciler the same stream on both sides flags nothing, does not
crash, and exits 0; since the run is a pure function of its inputs, running
it twice on unmodified identical sequences flags nothing both times, and
Scenario 1 (A = B = [(x,t1)]) is the singleton instance. -/
theorem identical_streams_flag_nothing (resp : Pid → Nat) (S : List Record) :
    main_run resp S S = (initState, false, 0) := by
  cases S with
  | nil => rfl
  | cons a S' =>
    have h := merge_loop_diag resp S' (S'.length + S'.length + 1) a initState (by omega)
    simp only [main_run, merge_main, h]
    rfl

/-- Claim C6 (confirmed).  The exit status is 0 when the update trigger was
never invoked and no fatal error occurred, and 1 when the trigger was invoked
at least once or the run crashed. -/
theorem exit_code_reflects_updates (resp : Pid → Nat) (A B : List Record) :
    ((main_run resp A B).1.calls = [] ∧ (main_run resp A B).2.1 = false →
      (main_run resp A B).2.2 = 0) ∧
    ((main_run resp A B).1.calls ≠ [] ∨ (main_run resp A B).2.1 = true →
      (main_run resp A B).2.2 = 1) := by
  have h := main_run_exit_shape resp A B
  constructor
  · rintro ⟨h1, h2⟩
    rw [h, h2]
    simp [h1]
  · rintro (h1 | h1)
    · rw [h]
      by_cases hc : (main_run resp A B).2.1 = true
      · simp [hc]
      · simp [hc, List.isEmpty_iff, h1]
    · rw [h, h1]
      simp

theorem exit_code_reflects_updates_witness :
    (main_run (fun _ => 200) [("w", 1)] [("w", 1)]).2.2 = 0 ∧
    (main_run (fun _ => 200) [("w", 2)] [("w", 1)]).2.2 = 1 :=
  ⟨(exit_code_reflects_updates (fun _ => 200) [("w", 1)] [("w", 1)]).1 (by decide),
   (exit_code_reflects_updates (fun _ => 200) [("w", 2)] [("w", 1)]).2 (Or.inl (by decide))⟩

/-- Claim C10 (confirmed).  `gsearch.updated` starts false, is set to true by
the statement at the top of `update_pid` — before the notification request is
posted, and irrespective of the response status, which only affects the log
message — and is never reset by the merge loop; consequently a run whose
notification requests all fail (status 500 here) still exits 1 as soon as one
call was attempted. -/
theorem updated_flag_monotone :
    initState.gs.updated = false ∧
    (∀ (s : RunState) (pid : Pid) (resp : Pid → Nat),
      (markUpdated s.gs).updated = true ∧
      ((update_pid resp s pid).1).gs.updated = true) ∧
    (∀ (resp : Pid → Nat) (fuel : Nat) (a b : Record) (ra sa : List Record)
        (s : RunState), s.gs.updated = true →
      ((merge_loop resp fuel a b ra sa s).1).gs.updated = true) ∧
    (∀ (A B : List Record),
      (main_run (fun _ => 500) A B).1.calls ≠ [] →
      (main_run (fun _ => 500) A B).2.2 = 1) := by
  refine ⟨rfl, fun s pid resp => ⟨?_, update_pid_updated resp s pid⟩,
    merge_loop_updated_mono, fun A B h1 => ?_⟩
  · by_cases h : s.gs.updated <;> simp [markUpdated, h]
  · rw [main_run_exit_shape]
    by_cases hc : (main_run (fun _ => 500) A B).2.1 = true
    · simp [hc]
    · simp [hc, List.isEmpty_iff, h1]

theorem updated_flag_monotone_witness :
    (markUpdated (RunState.mk ⟨false⟩ []).gs).updated = true ∧
    ((merge_loop (fun _ => 500) 1 ("a", 1) ("b", 2) [] []
        ⟨⟨true⟩, ["q"]⟩).1).gs.updated = true ∧
    (main_run (fun _ => 500) [("x", 2)] [("x", 1)]).2.2 = 1 :=
  ⟨(updated_flag_monotone.2.1 (RunState.mk ⟨false⟩ []) "p" (fun _ => 500)).1,
   updated_flag_monotone.2.2.1 (fun _ => 500) 1 ("a", 1) ("b", 2) [] [] ⟨⟨true⟩, ["q"]⟩ rfl,
   updated_flag_monotone.2.2.2 [("x", 2)] [("x", 1)] (by decide)⟩

/-- Claim C8 (confirmed).  When the two buffered records carry equal
timestamps, the loop resolves the step purely by identifier comparison: the
side holding the smaller identifier is flagged and advanced (only that side),
and equal identifiers advance both sides without flagging. -/
theorem equal_timestamp_tiebreak (resp : Pid → Nat) (fuel : Nat)
    (rp sp : Pid) (rt st : Nat) (ra sa : List Record) (s : RunState)
    (heq : rt = st) :
    (rp < sp →
      merge_loop resp (fuel + 1) (rp, rt) (sp, st) ra sa s =
        (match ra with
         | [] => ((update_pid resp s rp).1, [], sa)
         | r :: ra' => merge_loop resp fuel r (sp, st) ra' sa ((update_pid resp s rp).1))) ∧
    (sp < rp →
      merge_loop resp (fuel + 1) (rp, rt) (sp, st) ra sa s =
        (match sa with
         | [] => ((update_pid resp s sp).1, ra, [])
         | q :: sa' => merge_loop resp fuel (rp, rt) q ra sa' ((update_pid resp s sp).1))) ∧
    (rp = sp →
      merge_loop resp (fuel + 1) (rp, rt) (sp, st) ra sa s =
        (match ra with
         | [] => (s, [], sa)
         | r :: ra' =>
           match sa with
           | [] => (s, ra', [])
           | q :: sa' => merge_loop resp fuel r q ra' sa' s)) := by
  subst heq
  refine ⟨fun h => ?_, fun h => ?_, fun h => ?_⟩
  · simp only [merge_loop]
    rw [if_neg (lt_irrefl rt), if_neg (lt_irrefl rt), if_pos h]
  · simp only [merge_loop]
    rw [if_neg (lt_irrefl rt), if_neg (lt_irrefl rt),
      if_neg (lt_asymm h), if_pos h]
  · subst h
    simp only [merge_loop]
    rw [if_neg (lt_irrefl rt), if_neg (lt_irrefl rt),
      if_neg (lt_irrefl rp), if_neg (lt_irrefl rp)]

theorem equal_timestamp_tiebreak_witness :
    (merge_loop (fun _ => 200) 1 ("a", 3) ("b", 3) [] [] initState =
      ((update_pid (fun _ => 200) initState "a").1, [], [])) ∧
    (merge_loop (fun _ => 200) 1 ("b", 3) ("a", 3) [] [] initState =
      ((update_pid (fun _ => 200) initState "a").1, [], [])) ∧
    (merge_loop (fun _ => 200) 1 ("a", 3) ("a", 3) [] [] initState = (initState, [], [])) :=
  ⟨(equal_timestamp_tiebreak (fun _ => 200) 0 "a" "b" 3 3 [] [] initState rfl).1 (by decide),
   (equal_timestamp_tiebreak (fun _ => 200) 0 "b" "a" 3 3 [] [] initState rfl).2.1 (by decide),
   (equal_timestamp_tiebreak (fun _ => 200) 0 "a" "a" 3 3 [] [] initState rfl).2.2 rfl⟩

/-! ### Counterexamples about the paginated sources -/

/-- Claim C5 counterexample.  Two records share timestamp 5 and the page size
is 1: the second fetch filters strictly above the boundary timestamp and
`("b", 5)` is silently dropped by both source types — there is no truncation
detection and no inclusive re-request. -/
theorem boundary_tie_record_dropped_cex :
    ("b", 5) ∈ ([("a", 5), ("b", 5)] : List Record) ∧
    ("b", 5) ∉ ri_generator [("a", 5), ("b", 5)] 1 none neverFail ∧
    ("b", 5) ∉ solr_generator [("a", 5), ("b", 5)] 1 none neverFail := by
  decide

/-- Claim C7 counterexample.  The same window boundary 5 is passed to both
sources, yet a record modified exactly at the boundary is enumerated by the
RI source (initial filter `>= start`) and not by the Solr source (initial
filter `{start TO *}`, an exclusive bound): the two populations differ. -/
theorem boundary_record_included_only_by_ri_cex :
    ri_generator [("x", 5)] 10 (some 5) neverFail = [("x", 5)] ∧
    solr_generator [("x", 5)] 10 (some 5) neverFail = [] := by
  decide

/-! ### Completeness of the paginated sources when no timestamp group is
split across a page boundary -/

/-- The predicate `TimeFilter.test` depends only on the timestamp and is upward closed. -/
lemma TimeFilter.test_mono (f : TimeFilter) (p q : Pid) (t t' : Nat)
    (h : TimeFilter.test f (p, t) = true) (hle : t ≤ t') :
    TimeFilter.test f (q, t') = true := by
  cases f with
  | all => rfl
  | ge t0 =>
    simp [TimeFilter.test] at h ⊢
    omega
  | gt t0 =>
    simp [TimeFilter.test] at h ⊢
    omega

lemma noSplit_iff (limit : Nat) (l : List Record) :
    noSplit limit l = true ↔
      ∀ (j : Nat) (h : j + 1 < l.length), (j + 1) % limit = 0 →
        (l.get ⟨j, by omega⟩).2 ≠ (l.get ⟨j + 1, h⟩).2 := by
  unfold noSplit
  rw [List.all_eq_true]
  constructor
  · intro H j h hmod
    have hj := H j (List.mem_range.mpr (by omega))
    rw [dif_pos h, if_pos hmod] at hj
    exact of_decide_eq_true hj
  · intro H j hj
    by_cases h : j + 1 < l.length
    · rw [dif_pos h]
      by_cases hmod : (j + 1) % limit = 0
      · rw [if_pos hmod]
        exact decide_eq_true (H j h hmod)
      · rw [if_neg hmod]
    · rw [dif_neg h]

lemma noSplit_drop (limit : Nat) (l : List Record)
    (h : noSplit limit l = true) : noSplit limit (l.drop limit) = true := by
  rw [noSplit_iff] at h ⊢
  intro j hj hmod
  have hdl : (l.drop limit).length = l.length - limit := List.length_drop limit l
  have e1 : (l.drop limit).get ⟨j, by omega⟩ = l.get ⟨limit + j, by omega⟩ := by
    rw [List.get_eq_getElem, List.get_eq_getElem, List.getElem_drop]
  have e2 : (l.drop limit).get ⟨j + 1, hj⟩ = l.get ⟨limit + j + 1, by omega⟩ := by
    rw [List.get_eq_getElem, List.get_eq_getElem, List.getElem_drop]
    have e3 : limit + (j + 1) = limit + j + 1 := by omega
    simp only [e3]
  rw [e1, e2]
  exact h (limit + j) (by omega)
    (by
      have e4 : limit + j + 1 = limit + (j + 1) := by omega
      rw [e4, Nat.add_mod_left]
      exact hmod)

lemma get_take_eq (l : List Record) (n i : Nat) (h : i < (l.take n).length)
    (h2 : i < l.length) : (l.take n).get ⟨i, h⟩ = l.get ⟨i, h2⟩ := by
  rw [List.get_eq_getElem, List.get_eq_getElem]
  exact List.getElem_take l

lemma get_drop_eq (l : List Record) (n i : Nat) (h : i < (l.drop n).length)
    (h2 : n + i < l.length) : (l.drop n).get ⟨i, h⟩ = l.get ⟨n + i, h2⟩ := by
  rw [List.get_eq_getElem, List.get_eq_getElem]
  exact List.getElem_drop l

lemma sorted_get_le (l : List Record)
    (hs : List.Pairwise (fun a b : Record => a.2 ≤ b.2) l) (i j : Nat)
    (hi : i < l.length) (hj : j < l.length) (hij : i ≤ j) :
    (l.get ⟨i, hi⟩).2 ≤ (l.get ⟨j, hj⟩).2 := by
  rcases Nat.lt_or_ge i j with hlt | hge
  · exact List.pairwise_iff_get.mp hs ⟨i, hi⟩ ⟨j, hj⟩ hlt
  · have hij2 : i = j := by omega
    subst hij2
    exact le_refl _

/-- Splitting a sorted list at a page boundary with no split timestamp group
separates it strictly in time: everything in the page is strictly older than
everything in the remainder. -/
lemma noSplit_lt (limit : Nat) (l : List Record) (hlim : 0 < limit)
    (hs : List.Pairwise (fun a b : Record => a.2 ≤ b.2) l)
    (hns : noSplit limit l = true) (hlt : limit < l.length) :
    ∀ x ∈ l.take limit, ∀ y ∈ l.drop limit, x.2 < y.2 := by
  intro x hx y hy
  obtain ⟨⟨i, hi⟩, hxeq⟩ := List.mem_iff_get.mp hx
  obtain ⟨⟨j, hj⟩, hyeq⟩ := List.mem_iff_get.mp hy
  have hti : (l.take limit).length = limit := List.length_take_of_le (le_of_lt hlt)
  have hdj : (l.drop limit).length = l.length - limit := List.length_drop limit l
  have hbi : i < l.length := by omega
  have hbj : limit + j < l.length := by omega
  have hb1 : limit - 1 < l.length := by omega
  have hb2 : limit - 1 + 1 < l.length := by omega
  have hx2 : x = l.get ⟨i, hbi⟩ := by
    rw [← hxeq]
    exact get_take_eq l limit i hi hbi
  have hy2 : y = l.get ⟨limit + j, hbj⟩ := by
    rw [← hyeq]
    exact get_drop_eq l limit j hj hbj
  have hneq : (l.get ⟨limit - 1, hb1⟩).2 ≠ (l.get ⟨limit - 1 + 1, hb2⟩).2 :=
    (noSplit_iff limit l).mp hns (limit - 1) hb2
      (by
        have h12 : limit - 1 + 1 = limit := by omega
        rw [h12, Nat.mod_self])
  have hle1 : (l.get ⟨i, hbi⟩).2 ≤ (l.get ⟨limit - 1, hb1⟩).2 :=
    sorted_get_le l hs i (limit - 1) hbi hb1 (by omega)
  have hle2 : (l.get ⟨limit - 1, hb1⟩).2 ≤ (l.get ⟨limit - 1 + 1, hb2⟩).2 :=
    sorted_get_le l hs (limit - 1) (limit - 1 + 1) hb1 hb2 (by omega)
  have hle3 : (l.get ⟨limit - 1 + 1, hb2⟩).2 ≤ (l.get ⟨limit + j, hbj⟩).2 :=
    sorted_get_le l hs (limit - 1 + 1) (limit + j) hb2 hbj (by omega)
  rw [hx2, hy2]
  omega

/-- In a list sorted by timestamp, no entry has a timestamp above that of
the last entry. -/
lemma sorted_le_getLast :
    ∀ (l : List Record), List.Pairwise (fun a b : Record => a.2 ≤ b.2) l →
      ∀ (hne : l ≠ []) (x : Record), x ∈ l → x.2 ≤ (l.getLast hne).2 := by
  intro l
  induction l with
  | nil => intro _ hne; cases hne rfl
  | cons a t ih =>
    intro hs hne x hx
    cases t with
    | nil =>
      have hxa : x = a := by simpa using hx
      subst hxa
      exact le_refl _
    | cons b t' =>
      rw [List.getLast_cons (List.cons_ne_nil b t')]
      rcases List.mem_cons.mp hx with rfl | hx'
      · exact List.rel_of_pairwise_cons hs (List.getLast_mem (List.cons_ne_nil b t'))
      · exact ih (List.pairwise_cons.mp hs).2 (List.cons_ne_nil b t') x hx'

/-- In a list sorted by timestamp, the timestamp of the head is a lower bound. -/
lemma sorted_head_le {hd : Record} {tl : List Record}
    (hs : List.Pairwise (fun a b : Record => a.2 ≤ b.2) (hd :: tl)) :
    ∀ y ∈ hd :: tl, hd.2 ≤ y.2 := by
  intro y hy
  rcases List.mem_cons.mp hy with rfl | hy'
  · exact le_refl _
  · exact List.rel_of_pairwise_cons hs hy'

/-- One successful page step: with a sorted table, a positive page size, and
no timestamp group split at the page boundary, re-fetching strictly above the
last timestamp of the page yields exactly the remainder of the current matching
set. -/
lemma cursor_filter_eq (db : List Record) (f : TimeFilter) (limit : Nat)
    (hdb : List.Pairwise (fun a b : Record => a.2 ≤ b.2) db) (hlim : 0 < limit)
    (p : Record) (ps : List Record)
    (hpage : (db.filter (TimeFilter.test f)).take limit = p :: ps)
    (hns : noSplit limit (db.filter (TimeFilter.test f)) = true)
    (e : Record) (he : (p :: ps).getLast (List.cons_ne_nil p ps) = e) :
    db.filter (TimeFilter.test (TimeFilter.gt e.2))
      = (db.filter (TimeFilter.test f)).drop limit := by
  have hsl : List.Pairwise (fun a b : Record => a.2 ≤ b.2)
      (db.filter (TimeFilter.test f)) := hdb.filter _
  have hlne : db.filter (TimeFilter.test f) ≠ [] := by
    intro h0
    rw [h0] at hpage
    simp at hpage
  have hemem : e ∈ db.filter (TimeFilter.test f) := by
    apply List.take_subset limit
    rw [hpage, ← he]
    exact List.getLast_mem (List.cons_ne_nil p ps)
  have hetest : TimeFilter.test f e = true := (List.mem_filter.mp hemem).2
  have himp : ∀ a : Record, TimeFilter.test (TimeFilter.gt e.2) a = true →
      TimeFilter.test f a = true := by
    intro a ha
    have hlt : e.2 < a.2 := by
      simpa [TimeFilter.test] using ha
    exact TimeFilter.test_mono f e.1 a.1 e.2 a.2 hetest (le_of_lt hlt)
  have hA : db.filter (TimeFilter.test (TimeFilter.gt e.2))
      = (db.filter (TimeFilter.test f)).filter (TimeFilter.test (TimeFilter.gt e.2)) := by
    rw [List.filter_filter]
    apply List.filter_congr
    intro a ha
    cases hgt : TimeFilter.test (TimeFilter.gt e.2) a with
    | false => simp
    | true => simp [himp a hgt]
  rw [hA]
  conv_lhs => rw [← List.take_append_drop limit (db.filter (TimeFilter.test f))]
  rw [List.filter_append]
  have hB1 : ((db.filter (TimeFilter.test f)).take limit).filter
      (TimeFilter.test (TimeFilter.gt e.2)) = [] := by
    rw [List.filter_eq_nil_iff]
    intro x hx
    have hsort : List.Pairwise (fun a b : Record => a.2 ≤ b.2) (p :: ps) := by
      rw [← hpage]
      exact List.Pairwise.sublist (List.take_sublist limit _) hsl
    have hxle : x.2 ≤ e.2 := by
      rw [hpage] at hx
      rw [← he]
      exact sorted_le_getLast (p :: ps) hsort (List.cons_ne_nil p ps) x hx
    simp only [TimeFilter.test, decide_eq_true_eq]
    omega
  have hB2 : ((db.filter (TimeFilter.test f)).drop limit).filter
      (TimeFilter.test (TimeFilter.gt e.2))
      = (db.filter (TimeFilter.test f)).drop limit := by
    rw [List.filter_eq_self]
    intro y hy
    have hlt : limit < (db.filter (TimeFilter.test f)).length := by
      rcases Nat.lt_or_ge limit (db.filter (TimeFilter.test f)).length with h1 | h1
      · exact h1
      · rw [List.drop_eq_nil_iff.mpr h1] at hy
        simp at hy
    have hkey := noSplit_lt limit (db.filter (TimeFilter.test f)) hlim hsl hns hlt
      e
      (by
        rw [hpage, ← he]
        exact List.getLast_mem (List.cons_ne_nil p ps))
      y hy
    simp only [TimeFilter.test, decide_eq_true_eq]
    omega
  rw [hB1, hB2, List.nil_append]

/-- The RI page loop, run with enough fuel, no failures, a sorted table, a
positive page size and no split timestamp group, enumerates exactly the
matching set of its current filter. -/
lemma ri_loop_complete (db : List Record) (limit : Nat)
    (hdb : List.Pairwise (fun a b : Record => a.2 ≤ b.2) db) (hlim : 0 < limit) :
    ∀ (fuel : Nat) (f : TimeFilter) (idx : Nat),
      (db.filter (TimeFilter.test f)).length < fuel →
      noSplit limit (db.filter (TimeFilter.test f)) = true →
      ri_loop db limit neverFail fuel idx f = db.filter (TimeFilter.test f) := by
  intro fuel
  induction fuel with
  | zero =>
    intro f idx hlen hns
    omega
  | succ n ih =>
    intro f idx hlen hns
    simp only [ri_loop, neverFail, Bool.false_eq_true, if_false]
    rcases hpage : (db.filter (TimeFilter.test f)).take limit with _ | ⟨p, ps⟩
    · have h0 : db.filter (TimeFilter.test f) = [] := by
        rcases List.take_eq_nil_iff.mp hpage with h1 | h1
        · omega
        · exact h1
      simp only [hpage]
      exact h0.symm
    · simp only [hpage]
      have hstep := cursor_filter_eq db f limit hdb hlim p ps hpage hns
        ((p :: ps).getLast (List.cons_ne_nil p ps)) rfl
      have hlne : db.filter (TimeFilter.test f) ≠ [] := by
        intro h0
        rw [h0] at hpage
        simp at hpage
      have hlenpos : 0 < (db.filter (TimeFilter.test f)).length :=
        List.length_pos.mpr hlne
      have ihlen : (db.filter (TimeFilter.test
          (TimeFilter.gt (((p :: ps).getLast (List.cons_ne_nil p ps)).2)))).length < n := by
        rw [hstep, List.length_drop]
        omega
      have ihns : noSplit limit (db.filter (TimeFilter.test
          (TimeFilter.gt (((p :: ps).getLast (List.cons_ne_nil p ps)).2)))) = true := by
        rw [hstep]
        exact noSplit_drop limit _ hns
      have hrec := ih (TimeFilter.gt (((p :: ps).getLast (List.cons_ne_nil p ps)).2))
        (idx + 1) ihlen ihns
      rw [hrec, hstep, ← hpage, List.take_append_drop]

/-- With a positive page size, the Solr loop and the RI loop coincide: when
the matching set is empty, `numFound = 0` breaks the Solr loop while the RI
loop fetches an empty page, and otherwise the page is non-empty and both
advance the same strict cursor. -/
lemma solr_loop_eq_ri_loop (db : List Record) (limit : Nat) (fail : Nat → Bool)
    (hlim : 0 < limit) :
    ∀ (fuel : Nat) (idx : Nat) (f : TimeFilter),
      solr_loop db limit fail fuel idx f = ri_loop db limit fail fuel idx f := by
  intro fuel
  induction fuel with
  | zero => intro idx f; rfl
  | succ n ih =>
    intro idx f
    simp only [solr_loop, ri_loop]
    by_cases hfail : fail idx
    · rw [if_pos hfail, if_pos hfail]
    · rw [if_neg hfail, if_neg hfail]
      by_cases hlen0 : (db.filter (TimeFilter.test f)).length = 0
      · have h0 : db.filter (TimeFilter.test f) = [] := List.length_eq_zero.mp hlen0
        rw [if_pos hlen0, h0]
        simp
      · rw [if_neg hlen0]
        rcases hpage : (db.filter (TimeFilter.test f)).take limit with _ | ⟨p, ps⟩
        · rcases List.take_eq_nil_iff.mp hpage with h1 | h1
          · omega
          · rw [h1] at hlen0
        · simp only [hpage]
          rw [ih]

/-- Claim C5 (amended).  After each full page both sources re-request with a
strict lower bound on the last timestamp of the page, with no truncation
detection, so records sharing a boundary timestamp that did not fit in the
page are dropped (see the counterexample).  When no page boundary splits a
group of equal timestamps — and the page size is positive — each source
yields every record of its own windowed population exactly once, in order. -/
theorem generator_complete_without_split_ties (db : List Record) (limit : Nat)
    (start : Option Nat)
    (hdb : List.Pairwise (fun a b : Record => a.2 ≤ b.2) db) (hlim : 0 < limit)
    (hri : noSplit limit (db.filter (TimeFilter.test
      (match start with | none => TimeFilter.all | some s => TimeFilter.ge s))) = true)
    (hsolr : noSplit limit (db.filter (TimeFilter.test
      (match start with | none => TimeFilter.all | some s => TimeFilter.gt s))) = true) :
    ri_generator db limit start neverFail
      = db.filter (TimeFilter.test
          (match start with | none => TimeFilter.all | some s => TimeFilter.ge s)) ∧
    solr_generator db limit start neverFail
      = db.filter (TimeFilter.test
          (match start with | none => TimeFilter.all | some s => TimeFilter.gt s)) := by
  cases start with
  | none =>
    constructor
    · simp only [ri_generator]
      exact ri_loop_complete db limit hdb hlim (db.length + 1) TimeFilter.all 0
        (by
          have := List.length_filter_le (TimeFilter.test TimeFilter.all) db
          omega)
        hri
    · simp only [solr_generator]
      rw [solr_loop_eq_ri_loop db limit neverFail hlim]
      exact ri_loop_complete db limit hdb hlim (db.length + 1) TimeFilter.all 0
        (by
          have := List.length_filter_le (TimeFilter.test TimeFilter.all) db
          omega)
        hsolr
  | some s =>
    constructor
    · simp only [ri_generator]
      exact ri_loop_complete db limit hdb hlim (db.length + 1) (TimeFilter.ge s) 0
        (by
          have := List.length_filter_le (TimeFilter.test (TimeFilter.ge s)) db
          omega)
        hri
    · simp only [solr_generator]
      rw [solr_loop_eq_ri_loop db limit neverFail hlim]
      exact ri_loop_complete db limit hdb hlim (db.length + 1) (TimeFilter.gt s) 0
        (by
          have := List.length_filter_le (TimeFilter.test (TimeFilter.gt s)) db
          omega)
        hsolr

theorem generator_complete_without_split_ties_witness :
    ri_generator [("a", 1), ("b", 1), ("c", 2)] 2 none neverFail
      = List.filter (TimeFilter.test TimeFilter.all) [("a", 1), ("b", 1), ("c", 2)] ∧
    solr_generator [("a", 1), ("b", 1), ("c", 2)] 2 none neverFail
      = List.filter (TimeFilter.test TimeFilter.all) [("a", 1), ("b", 1), ("c", 2)] :=
  generator_complete_without_split_ties [("a", 1), ("b", 1), ("c", 2)] 2 none
    (by decide) (by decide) (by decide) (by decide)

/-- With failures injected, the RI loop yields a prefix of what the
failure-free loop yields: a non-success status silently truncates the
stream and is indistinguishable from exhaustion. -/
lemma ri_loop_fail_prefix (db : List Record) (limit : Nat) (fail : Nat → Bool) :
    ∀ (fuel : Nat) (idx : Nat) (f : TimeFilter),
      ∃ t, ri_loop db limit neverFail fuel idx f
        = ri_loop db limit fail fuel idx f ++ t := by
  intro fuel
  induction fuel with
  | zero => intro idx f; exact ⟨[], rfl⟩
  | succ n ih =>
    intro idx f
    by_cases hfail : fail idx
    · refine ⟨ri_loop db limit neverFail (n + 1) idx f, ?_⟩
      have hz : ri_loop db limit fail (n + 1) idx f = [] := by
        simp only [ri_loop]
        rw [if_pos hfail]
      rw [hz, List.nil_append]
    · simp only [ri_loop, neverFail, Bool.false_eq_true, if_false]
      rw [if_neg hfail]
      rcases hpage : (db.filter (TimeFilter.test f)).take limit with _ | ⟨p, ps⟩
      · exact ⟨[], by simp [hpage]⟩
      · simp only [hpage]
        obtain ⟨t, ht⟩ := ih (idx + 1)
          (TimeFilter.gt (((p :: ps).getLast (by simp)).2))
        exact ⟨t, by rw [ht, List.append_assoc]⟩

/-- Same truncation property for the Solr loop. -/
lemma solr_loop_fail_prefix (db : List Record) (limit : Nat) (fail : Nat → Bool) :
    ∀ (fuel : Nat) (idx : Nat) (f : TimeFilter),
      ∃ t, solr_loop db limit neverFail fuel idx f
        = solr_loop db limit fail fuel idx f ++ t := by
  intro fuel
  induction fuel with
  | zero => intro idx f; exact ⟨[], rfl⟩
  | succ n ih =>
    intro idx f
    by_cases hfail : fail idx
    · refine ⟨solr_loop db limit neverFail (n + 1) idx f, ?_⟩
      have hz : solr_loop db limit fail (n + 1) idx f = [] := by
        simp only [solr_loop]
        rw [if_pos hfail]
      rw [hz, List.nil_append]
    · simp only [solr_loop, neverFail, Bool.false_eq_true, if_false]
      rw [if_neg hfail]
      by_cases hlen0 : (db.filter (TimeFilter.test f)).length = 0
      · rw [if_pos hlen0, if_pos hlen0]
        exact ⟨[], rfl⟩
      · rw [if_neg hlen0, if_neg hlen0]
        rcases hpage : (db.filter (TimeFilter.test f)).take limit with _ | ⟨p, ps⟩
        · exact ⟨[], by simp [hpage]⟩
        · simp only [hpage]
          obtain ⟨t, ht⟩ := ih (idx + 1)
            (TimeFilter.gt (((p :: ps).getLast (by simp)).2))
          exact ⟨t, by rw [ht, List.append_assoc]⟩

/-- Claim C3 (amended).  A non-success HTTP status from either query service
surfaces no error: the while-loop condition of the generator simply fails, the
stream silently ends as if exhausted — its output is a prefix of the
failure-free output — and the exit code of the whole pass is computed solely from
the trigger state and the drain-crash flag, never from a fetch status. -/
theorem fetch_failure_silently_truncates :
    (∀ (db : List Record) (limit : Nat) (start : Option Nat) (fail : Nat → Bool),
      ∃ t, ri_generator db limit start neverFail
        = ri_generator db limit start fail ++ t) ∧
    (∀ (db : List Record) (limit : Nat) (start : Option Nat) (fail : Nat → Bool),
      ∃ t, solr_generator db limit start neverFail
        = solr_generator db limit start fail ++ t) ∧
    (∀ (resp : Pid → Nat) (riDb solrDb : List Record) (limit : Nat)
        (start : Option Nat) (riFail solrFail : Nat → Bool),
      (full_run resp riDb solrDb limit start riFail solrFail).2.2
        = (if (full_run resp riDb solrDb limit start riFail solrFail).2.1 = true then 1
           else if (full_run resp riDb solrDb limit start riFail
               solrFail).1.calls.isEmpty = true then 0
           else 1)) := by
  refine ⟨fun db limit start fail => ?_, fun db limit start fail => ?_,
    fun resp riDb solrDb limit start rf sf => ?_⟩
  · simp only [ri_generator]
    exact ri_loop_fail_prefix db limit fail (db.length + 1) 0 _
  · simp only [solr_generator]
    exact solr_loop_fail_prefix db limit fail (db.length + 1) 0 _
  · exact main_run_exit_shape resp _ _

/-- Claim C7 (amended).  The same window boundary is handed to both sources,
and away from the boundary their initial filters agree; but a record whose
`modified_at` equals the boundary exactly is kept by the inclusive RI
initial filter (`>=`) and dropped by the exclusive Solr
one (`{start TO *}`), so the two enumerated populations differ at the
boundary. -/
theorem window_boundary_filters_disagree (s : Nat) (r : Record) (p : Pid) :
    (r.2 < s → TimeFilter.test (TimeFilter.ge s) r = false ∧
      TimeFilter.test (TimeFilter.gt s) r = false) ∧
    (r.2 = s → TimeFilter.test (TimeFilter.ge s) r = true ∧
      TimeFilter.test (TimeFilter.gt s) r = false) ∧
    (s < r.2 → TimeFilter.test (TimeFilter.ge s) r = true ∧
      TimeFilter.test (TimeFilter.gt s) r = true) ∧
    (ri_generator [(p, s)] 1 (some s) neverFail = [(p, s)] ∧
     solr_generator [(p, s)] 1 (some s) neverFail = []) := by
  refine ⟨fun h => ⟨?_, ?_⟩, fun h => ⟨?_, ?_⟩, fun h => ⟨?_, ?_⟩, ?_, ?_⟩
  · simp [TimeFilter.test]
    omega
  · simp [TimeFilter.test]
    omega
  · simp [TimeFilter.test]
    omega
  · simp [TimeFilter.test]
    omega
  · simp [TimeFilter.test]
    omega
  · simp [TimeFilter.test]
    omega
  · simp [ri_generator, ri_loop, neverFail, TimeFilter.test]
  · simp [solr_generator, solr_loop, neverFail, TimeFilter.test]

theorem window_boundary_filters_disagree_witness :
    (TimeFilter.test (TimeFilter.ge 5) ("x", 5) = true ∧
     TimeFilter.test (TimeFilter.gt 5) ("x", 5) = false) ∧
    ri_generator [("x", 5)] 1 (some 5) neverFail = [("x", 5)] ∧
    solr_generator [("x", 5)] 1 (some 5) neverFail = [] :=
  ⟨(window_boundary_filters_disagree 5 ("x", 5) "x").2.1 rfl,
   (window_boundary_filters_disagree 5 ("x", 5) "x").2.2.2.1,
   (window_boundary_filters_disagree 5 ("x", 5) "x").2.2.2.2⟩

/-- Claim C3 counterexample.  The second Solr page fetch returns a
non-success status mid-pass; the claim requires the pass to abort with a
fatal error and a non-zero exit code.  Instead the Solr stream silently ends
after its first page, the merge treats it as exhaustion, nothing is flagged,
nothing crashes, and the process exits 0. -/
theorem fetch_failure_exit_zero_cex :
    solr_generator [("x", 1), ("y", 2)] 1 none (fun i => i == 1) = [("x", 1)] ∧
    (full_run (fun _ => 200) [("x", 1), ("y", 2)] [("x", 1), ("y", 2)] 1 none
        neverFail (fun i => i == 1)).1.calls = [] ∧
    (full_run (fun _ => 200) [("x", 1), ("y", 2)] [("x", 1), ("y", 2)] 1 none
        neverFail (fun i => i == 1)).2.1 = false ∧
    (full_run (fun _ => 200) [("x", 1), ("y", 2)] [("x", 1), ("y", 2)] 1 none
        neverFail (fun i => i == 1)).2.2 = 0 := by
  decide
